import Mathlib

/-!
Verification of the SpieleklubBot game-picker bot (`main.py`).

The bot keeps per-chat state: a list `selected_games` of toggled-on games,
a flag `awaiting_ranking`, and a `ranking` list.  Inline-button taps are
dispatched to `handle_selection_callback` (toggle a game / press Done) and
free-text messages to `handle_ranking_message` (parse and validate a
ranking).  This file embeds that logic shallowly: Python strings become
`String` / `List Char`, the per-chat `user_data` dict becomes a `Session`
structure, and each handler becomes a pure function returning the new
session together with an outcome tag and the list of message texts the
handler sends or edits.
-/

namespace SpieleklubBot

/-! ### Character-level string primitives

Python string operations used by the bot, modelled on `List Char`:
`str.strip()` (for the ASCII whitespace the bot can meet), `str.split(",")`
(splits at every comma, keeping empty fragments), and the regex
substitution `re.sub(r"^\s*\d+\.\s*", "", part)` (ASCII `\s` / `\d`). -/

/-- Python whitespace for `str.strip()` / regex `\s` (ASCII range). -/
def pyIsSpace (c : Char) : Bool :=
  c == ' ' || c == '\t' || c == '\n' || c == '\r' || c == '\x0b' || c == '\x0c'

/-- Regex `\d` (ASCII decimal digit). -/
def isDigitCh (c : Char) : Bool :=
  c == '0' || c == '1' || c == '2' || c == '3' || c == '4' ||
  c == '5' || c == '6' || c == '7' || c == '8' || c == '9'

/-- Python `s.strip()`: drop leading and trailing whitespace. -/
def pyStripChars (cs : List Char) : List Char :=
  ((cs.dropWhile pyIsSpace).reverse.dropWhile pyIsSpace).reverse

/-- Python `s.strip()` on `String`. -/
def pyStrip (s : String) : String :=
  String.mk (pyStripChars s.data)

/-- Python `text.split(",")`: split at every comma, keeping empty pieces
(`"".split(",") == [""]`). -/
def splitOnCommaChars : List Char → List (List Char)
  | [] => [[]]
  | c :: rest =>
    if c = ',' then
      [] :: splitOnCommaChars rest
    else
      match splitOnCommaChars rest with
      | [] => [[c]]
      | p :: ps => (c :: p) :: ps

/-- Models `re.sub(r"^\s*\d+\.\s*", "", cs)`: if the string starts with optional
whitespace, then one or more digits, then a literal dot, remove that prefix
together with the whitespace following the dot; otherwise return the string
unchanged.  (Greedy matching of `\s*` and `\d+` coincides with maximal-munch
here: backtracking to a shorter run can never make the next literal match.) -/
def strip_ordinal_chars (cs : List Char) : List Char :=
  if ((cs.dropWhile pyIsSpace).takeWhile isDigitCh).isEmpty then cs
  else
    match (cs.dropWhile pyIsSpace).dropWhile isDigitCh with
    | '.' :: rest2 => rest2.dropWhile pyIsSpace
    | _ => cs

/-- Models `re.sub(r"^\s*\d+\.\s*", "", s)` on `String`. -/
def strip_ordinal (s : String) : String :=
  String.mk (strip_ordinal_chars s.data)

/-- The decimal digit character for `n < 10`. -/
def digitChar (n : Nat) : Char := Char.ofNat (48 + n)

/-- Decimal digits of `n`, most significant first (fuel-structural so it
reduces definitionally; the fuel `n + 1` always suffices). -/
def natDigitsAux : Nat → Nat → List Char
  | 0, _ => []
  | fuel + 1, n =>
    if n < 10 then [digitChar n]
    else natDigitsAux fuel (n / 10) ++ [digitChar (n % 10)]

/-- Decimal rendering of a natural number, as Python `str(n)` / f-string
interpolation produces it. -/
def natDigits (n : Nat) : List Char := natDigitsAux (n + 1) n

/-- Decimal rendering as a `String`. -/
def natStr (n : Nat) : String := String.mk (natDigits n)

/-! ### Data model (`main.py` globals and per-chat state) -/

/-- The fixed catalog `GAMES` of selectable games (`main.py` lines 26-32). -/
def GAMES : List String := ["Chess", "Tic-Tac-Toe", "Hangman", "2048", "Sudoku"]

/-- The per-chat state kept in `context.user_data`:
`selected_games`, `awaiting_ranking`, `ranking`. -/
structure Session where
  selected_games : List String
  awaiting_ranking : Bool
  ranking : List String
deriving Repr, DecidableEq

/-- The state installed by `/start` and `/change`: empty selection, not
awaiting a ranking, empty ranking. -/
def reset_session : Session := Session.mk [] false []

/-! ### Message texts sent or edited by the handlers -/

/-- The selection-keyboard prompt (sent with the multi-select keyboard). -/
def choose_prompt : String := "Choose all the games you are interested in:"

/-- Warning when Done is pressed with an empty selection. -/
def done_empty_warning : String :=
  "⚠️ You must select at least one game before pressing Done."

/-- The fallback reply for unexpected callback data (`main.py` line 154). -/
def something_wrong_text : String :=
  "❌ Something went wrong. Please send /start to retry."

/-- The ranking prompt shown after a successful Done press. -/
def ranking_prompt_text (selected_games : List String) : String :=
  "You selected: *" ++ String.intercalate ", " selected_games ++ "*\n\n" ++
  "Now please rank them in order of preference.\n" ++
  "Send a single message like:\n" ++
  "`1. Chess, 2. Hangman, 3. 2048`\n\n" ++
  "Make sure to include *all* selected games exactly once."

/-- Reply when the comma-split of the ranking text yields no fragments. -/
def no_items_text : String :=
  "⚠️ I couldn\x27t detect any comma‐separated items. " ++
  "Please send your ranking like:\n" ++
  "`1. Chess, 2. Hangman, 3. 2048`"

/-- Reply when the normalized candidates do not match the selection. -/
def mismatch_text (selected_games normalized : List String) : String :=
  "⚠️ The list you sent does not exactly match the games you selected.\n" ++
  "You selected: *" ++ String.intercalate ", " selected_games ++ "*\n" ++
  "You ranked: *" ++ String.intercalate ", " normalized ++ "*\n\n" ++
  "Please make sure to:\n" ++
  "  • Include every selected game exactly once.\n" ++
  "  • Use commas between each entry.\n\n" ++
  "Try again, e.g.:\n" ++
  "`1. Chess, 2. Hangman, 3. 2048`"

/-- Python `"\n".join(...)` of the lines `f"<i+1>. <game>"` over
`enumerate(items)` (line 221). -/
def enumerate_lines (items : List String) : String :=
  String.intercalate "\n" (items.enum.map (fun p => natStr (p.1 + 1) ++ ". " ++ p.2))

/-- Confirmation after a valid ranking. -/
def success_text (normalized : List String) : String :=
  "✅ Got it! Your final ranked list:\n\n" ++ enumerate_lines normalized ++
  "\n\nIf you want to pick or rank again, type /change."

/-! ### Callback handler (`handle_selection_callback`, lines 89-154) -/

/-- Which branch of `handle_selection_callback` fired. -/
inductive CallbackOutcome where
  /-- Done pressed with an empty selection (lines 107-118). -/
  | emptySelectionError
  /-- Done pressed with a non-empty selection: move to ranking (120-135). -/
  | rankingPrompt
  /-- The data was a game name: it was toggled (138-151). -/
  | toggled
  /-- Unexpected callback data (line 154). -/
  | unknownCallback
deriving Repr, DecidableEq

/-- Result of one callback dispatch: the new session, the branch taken,
and the texts the handler sent or edited, in order. -/
structure CallbackResult where
  state : Session
  outcome : CallbackOutcome
  messages : List String
deriving Repr, DecidableEq

/-- Handler for button taps, `handle_selection_callback` (lines 89-154):
Done with an empty selection
warns and re-sends the keyboard; Done with a non-empty selection sets
`awaiting_ranking` and prompts for the ranking; a game name is toggled
(removed if present, else appended); anything else gets the generic
"Something went wrong" reply.  There is no guard on `awaiting_ranking` or
`ranking` anywhere in this handler. -/
def handle_selection_callback (data : String) (s : Session) : CallbackResult :=
  if data = "__DONE__" then
    if s.selected_games.isEmpty then
      CallbackResult.mk s CallbackOutcome.emptySelectionError
        [done_empty_warning, choose_prompt]
    else
      CallbackResult.mk { s with awaiting_ranking := true }
        CallbackOutcome.rankingPrompt
        [ranking_prompt_text s.selected_games]
  else if data ∈ GAMES then
    CallbackResult.mk
      { s with selected_games :=
          if data ∈ s.selected_games then s.selected_games.erase data
          else s.selected_games ++ [data] }
      CallbackOutcome.toggled [choose_prompt]
  else
    CallbackResult.mk s CallbackOutcome.unknownCallback [something_wrong_text]

/-! ### Ranking-message handler (`handle_ranking_message`, lines 158-229) -/

/-- Computes `parts = [p.strip() for p in text.strip().split(",") if p.strip()]`
(lines 170 and 174). -/
def ranking_parts (text : String) : List String :=
  (((splitOnCommaChars (pyStripChars text.data)).map pyStripChars).filter
      (fun p => !p.isEmpty)).map (fun p => String.mk p)

/-- Computes `normalized`: each part with a leading `"<digits>."` ordinal
marker stripped (lines 188-192). -/
def ranking_candidates (text : String) : List String :=
  (ranking_parts text).map strip_ordinal

/-- Python `set(a) == set(b)` for lists of strings. -/
def pySetEq (a b : List String) : Bool :=
  a.all (fun x => b.contains x) && b.all (fun x => a.contains x)

/-- Which branch of `handle_ranking_message` fired. -/
inductive RankingOutcome where
  /-- The flag `awaiting_ranking` was false: the message is ignored (165-167). -/
  | ignored
  /-- No comma-separated fragments survived (175-185). -/
  | noItemsDetected
  /-- The candidates do not match the selection (199-214). -/
  | rankingMismatch
  /-- The ranking was saved (216-229). -/
  | accepted
deriving Repr, DecidableEq

/-- Result of one text-message dispatch. -/
structure RankingResult where
  state : Session
  outcome : RankingOutcome
  messages : List String
deriving Repr, DecidableEq

/-- Handler for text messages, `handle_ranking_message` (lines 158-229):
ignore unless awaiting a
ranking; split the text on commas and strip each piece; complain if nothing
survives; strip ordinal prefixes; accept iff the candidate set equals the
selected set and the lengths agree, in which case the candidate list (in
text order) becomes the ranking and `awaiting_ranking` is cleared. -/
def handle_ranking_message (text : String) (s : Session) : RankingResult :=
  if s.awaiting_ranking = false then
    RankingResult.mk s RankingOutcome.ignored []
  else if (ranking_parts text).isEmpty then
    RankingResult.mk s RankingOutcome.noItemsDetected [no_items_text]
  else if pySetEq (ranking_candidates text) s.selected_games &&
      (ranking_candidates text).length == s.selected_games.length then
    RankingResult.mk
      { s with ranking := ranking_candidates text, awaiting_ranking := false }
      RankingOutcome.accepted [success_text (ranking_candidates text)]
  else
    RankingResult.mk s RankingOutcome.rankingMismatch
      [mismatch_text s.selected_games (ranking_candidates text)]

/-! ### Reachable sessions -/

/-- Sessions reachable from `/start` by any sequence of callback taps and
text messages (`/change` re-installs `reset_session`, the `/start` state). -/
inductive Reachable : Session → Prop where
  | start : Reachable reset_session
  | callback (data : String) {s : Session} :
      Reachable s → Reachable (handle_selection_callback data s).state
  | message (text : String) {s : Session} :
      Reachable s → Reachable (handle_ranking_message text s).state

/-- The spec's session invariant: a non-empty `ranking` is a permutation of
`selected_games` (same elements, no duplicates, no omissions). -/
def session_invariant (s : Session) : Prop :=
  s.ranking ≠ [] → s.ranking.Perm s.selected_games

/-! ### The spec's ranking-text rendering

The bot itself never renders the comma format (its confirmations join
lines with `"\n"`); the format `"1. a, 2. b, ..."` is the one the prompts
describe and the spec's round-trip property quantifies over. -/

/-- One rendered fragment `"<n>. <g>"` of the ranking text. -/
def ordinal_frag (n : Nat) (g : List Char) : List Char :=
  natDigits n ++ '.' :: ' ' :: g

/-- The list of rendered fragments, numbering from `n`. -/
def ordinalFrags : Nat → List (List Char) → List (List Char)
  | _, [] => []
  | n, g :: t => ordinal_frag n g :: ordinalFrags (n + 1) t

/-- The rendered fragments joined with `", "`, numbering from `n`. -/
def render_from_chars : Nat → List (List Char) → List Char
  | _, [] => []
  | n, [g] => ordinal_frag n g
  | n, g :: h :: t => ordinal_frag n g ++ ',' :: ' ' :: render_from_chars (n + 1) (h :: t)

/-- Modelled from the spec: the ranking text `"1. a, 2. b, ..."` that
renders a selection in its own order with ordinal markers (spec §8; no
code under `src/` produces this format, only the prompts describe it). -/
def render_ranking (items : List String) : String :=
  String.mk (render_from_chars 1 (items.map String.data))

/-- A well-formed catalog name: non-empty, comma-free, and neither starting
nor ending with whitespace.  Every entry of `GAMES` satisfies this. -/
def goodName (g : List Char) : Bool :=
  !g.isEmpty && g.all (fun c => !(c == ',')) &&
  !(pyIsSpace (g.headD '.')) && !(pyIsSpace (g.getLastD '.'))

/-! ## Helper lemmas: character classes and digit strings -/

theorem isDigitCh_not_space {c : Char} (h : isDigitCh c = true) : pyIsSpace c = false := by
  simp only [isDigitCh, Bool.or_eq_true, beq_iff_eq] at h
  rcases h with ((((((((rfl | rfl) | rfl) | rfl) | rfl) | rfl) | rfl) | rfl) | rfl) | rfl <;> decide

theorem isDigitCh_ne_comma {c : Char} (h : isDigitCh c = true) : c ≠ ',' := by
  simp only [isDigitCh, Bool.or_eq_true, beq_iff_eq] at h
  rcases h with ((((((((rfl | rfl) | rfl) | rfl) | rfl) | rfl) | rfl) | rfl) | rfl) | rfl <;> decide

theorem isDigitCh_digitChar {n : Nat} (h : n < 10) : isDigitCh (digitChar n) = true := by
  interval_cases n <;> decide

theorem natDigitsAux_spec :
    ∀ fuel n, n < fuel →
      natDigitsAux fuel n ≠ [] ∧ ∀ c ∈ natDigitsAux fuel n, isDigitCh c = true := by
  intro fuel
  induction fuel with
  | zero => intro n h; omega
  | succ f ih =>
    intro n h
    by_cases h10 : n < 10
    · refine ⟨by simp [natDigitsAux, h10], ?_⟩
      intro c hc
      simp only [natDigitsAux, if_pos h10, List.mem_singleton] at hc
      subst hc
      exact isDigitCh_digitChar h10
    · have hdiv : n / 10 < f := by
        have := Nat.div_lt_self (by omega : 0 < n) (by omega : 1 < 10)
        omega
      obtain ⟨h1, h2⟩ := ih (n / 10) hdiv
      refine ⟨by simp [natDigitsAux, h10, h1], ?_⟩
      intro c hc
      simp only [natDigitsAux, if_neg h10, List.mem_append, List.mem_singleton] at hc
      rcases hc with hc | rfl
      · exact h2 c hc
      · exact isDigitCh_digitChar (Nat.mod_lt n (by omega))

theorem natDigits_ne_nil (n : Nat) : natDigits n ≠ [] :=
  (natDigitsAux_spec (n + 1) n (by omega)).1

theorem natDigits_digits {n : Nat} : ∀ c ∈ natDigits n, isDigitCh c = true :=
  (natDigitsAux_spec (n + 1) n (by omega)).2

/-! ## Helper lemmas: Python strip and split -/

theorem pyStripChars_eq_self {cs : List Char}
    (h1 : ∀ c, cs.head? = some c → pyIsSpace c = false)
    (h2 : ∀ c, cs.getLast? = some c → pyIsSpace c = false) :
    pyStripChars cs = cs := by
  cases cs with
  | nil => rfl
  | cons a t =>
    have ha : pyIsSpace a = false := h1 a rfl
    have hdrop : (a :: t).dropWhile pyIsSpace = a :: t := by
      rw [List.dropWhile_cons, ha]
      simp
    unfold pyStripChars
    rw [hdrop]
    cases hr : (a :: t).reverse with
    | nil => simp at hr
    | cons b u =>
      have hb : pyIsSpace b = false := by
        apply h2
        rw [← List.head?_reverse, hr]
        rfl
      rw [List.dropWhile_cons, hb]
      simp only [Bool.false_eq_true, if_false]
      rw [← hr, List.reverse_reverse]

theorem pyStripChars_cons_space (cs : List Char) :
    pyStripChars (' ' :: cs) = pyStripChars cs := by
  unfold pyStripChars
  rw [List.dropWhile_cons]
  simp only [show pyIsSpace ' ' = true from rfl, if_true]

theorem takeWhile_append_stop {p : Char → Bool} :
    ∀ (a : List Char) {b : Char} (r : List Char), (∀ c ∈ a, p c = true) → p b = false →
      (a ++ b :: r).takeWhile p = a := by
  intro a
  induction a with
  | nil =>
    intro b r _ hb
    simp [List.takeWhile_cons, hb]
  | cons x xs ih =>
    intro b r ha hb
    have hx : p x = true := ha x (by simp)
    simp [List.takeWhile_cons, hx, ih r (fun c hc => ha c (by simp [hc])) hb]

theorem dropWhile_append_stop {p : Char → Bool} :
    ∀ (a : List Char) {b : Char} (r : List Char), (∀ c ∈ a, p c = true) → p b = false →
      (a ++ b :: r).dropWhile p = b :: r := by
  intro a
  induction a with
  | nil =>
    intro b r _ hb
    simp [List.dropWhile_cons, hb]
  | cons x xs ih =>
    intro b r ha hb
    have hx : p x = true := ha x (by simp)
    simp [List.dropWhile_cons, hx, ih r (fun c hc => ha c (by simp [hc])) hb]

theorem splitOnCommaChars_ne_nil (cs : List Char) : splitOnCommaChars cs ≠ [] := by
  induction cs with
  | nil => simp [splitOnCommaChars]
  | cons c rest ih =>
    by_cases hc : c = ','
    · simp [splitOnCommaChars, hc]
    · cases h : splitOnCommaChars rest with
      | nil => exact absurd h ih
      | cons p ps => simp [splitOnCommaChars, hc, h]

theorem splitOnCommaChars_cons_of_ne {c : Char} (hc : ¬ c = ',') {cs p : List Char}
    {ps : List (List Char)} (h : splitOnCommaChars cs = p :: ps) :
    splitOnCommaChars (c :: cs) = (c :: p) :: ps := by
  simp [splitOnCommaChars, hc, h]

theorem splitOnCommaChars_no_comma :
    ∀ {a : List Char}, (∀ c ∈ a, c ≠ ',') → splitOnCommaChars a = [a] := by
  intro a
  induction a with
  | nil => intro _; rfl
  | cons x xs ih =>
    intro h
    have hx : ¬ x = ',' := h x (by simp)
    exact splitOnCommaChars_cons_of_ne hx (ih (fun c hc => h c (by simp [hc])))

theorem splitOnCommaChars_append :
    ∀ (a b : List Char), (∀ c ∈ a, c ≠ ',') →
      splitOnCommaChars (a ++ ',' :: b) = a :: splitOnCommaChars b := by
  intro a
  induction a with
  | nil =>
    intro b _
    simp [splitOnCommaChars]
  | cons x xs ih =>
    intro b h
    have hx : ¬ x = ',' := h x (by simp)
    have hxs := ih b (fun c hc => h c (by simp [hc]))
    simpa using splitOnCommaChars_cons_of_ne hx hxs

/-! ## Helper lemmas: good catalog names -/

theorem goodName_spec {g : List Char} (h : goodName g = true) :
    g ≠ [] ∧ (∀ c ∈ g, c ≠ ',') ∧ (∀ c, g.head? = some c → pyIsSpace c = false) ∧
      (∀ c, g.getLast? = some c → pyIsSpace c = false) := by
  simp only [goodName, Bool.and_eq_true, Bool.not_eq_true', List.all_eq_true,
    beq_eq_false_iff_ne, ne_eq] at h
  obtain ⟨⟨⟨hne, hcomma⟩, hhead⟩, hlast⟩ := h
  refine ⟨?_, ?_, ?_, ?_⟩
  · intro hnil
    subst hnil
    simp at hne
  · intro c hc
    exact hcomma c hc
  · intro c hc
    cases g with
    | nil => simp at hc
    | cons a t =>
      obtain rfl : a = c := by simpa using hc
      simpa using hhead
  · intro c hc
    rw [List.getLastD_eq_getLast?, hc] at hlast
    exact hlast

theorem games_goodName : ∀ g ∈ GAMES, goodName g.data = true := by decide

/-! ## Helper lemmas: rendered ranking fragments -/

theorem head?_append_left {l₁ l₂ : List Char} (h : l₁ ≠ []) :
    (l₁ ++ l₂).head? = l₁.head? := by
  cases l₁ with
  | nil => exact absurd rfl h
  | cons a t => rfl

theorem ordinal_frag_ne_nil (n : Nat) (g : List Char) : ordinal_frag n g ≠ [] := by
  unfold ordinal_frag
  intro hc
  exact natDigits_ne_nil n (List.append_eq_nil.mp hc).1

theorem ordinal_frag_head {n : Nat} {g : List Char} :
    ∀ c, (ordinal_frag n g).head? = some c → isDigitCh c = true := by
  intro c hc
  unfold ordinal_frag at hc
  rw [head?_append_left (natDigits_ne_nil n)] at hc
  cases hd : natDigits n with
  | nil => exact absurd hd (natDigits_ne_nil n)
  | cons d ds =>
    rw [hd] at hc
    obtain rfl : d = c := by simpa using hc
    exact natDigits_digits d (by rw [hd]; simp)

theorem ordinal_frag_no_comma {n : Nat} {g : List Char} (hg : ∀ c ∈ g, c ≠ ',') :
    ∀ c ∈ ordinal_frag n g, c ≠ ',' := by
  intro c hc
  unfold ordinal_frag at hc
  simp only [List.mem_append, List.mem_cons] at hc
  rcases hc with hd | rfl | rfl | hcg
  · exact isDigitCh_ne_comma (natDigits_digits c hd)
  · decide
  · decide
  · exact hg c hcg

theorem ordinal_frag_last {n : Nat} {g : List Char} (hne : g ≠ [])
    (hlast : ∀ c, g.getLast? = some c → pyIsSpace c = false) :
    ∀ c, (ordinal_frag n g).getLast? = some c → pyIsSpace c = false := by
  intro c hc
  unfold ordinal_frag at hc
  rw [List.getLast?_append_of_ne_nil _ (by simp)] at hc
  have hview : ('.' :: ' ' :: g) = ['.', ' '] ++ g := rfl
  rw [hview, List.getLast?_append_of_ne_nil _ hne] at hc
  exact hlast c hc

theorem ordinal_frag_strip {n : Nat} {g : List Char} (hne : g ≠ [])
    (hlast : ∀ c, g.getLast? = some c → pyIsSpace c = false) :
    pyStripChars (ordinal_frag n g) = ordinal_frag n g :=
  pyStripChars_eq_self
    (fun c hc => isDigitCh_not_space (ordinal_frag_head c hc))
    (ordinal_frag_last hne hlast)

theorem strip_ordinal_ordinal_frag {n : Nat} {g : List Char}
    (hhead : ∀ c, g.head? = some c → pyIsSpace c = false) :
    strip_ordinal_chars (ordinal_frag n g) = g := by
  have hdigits : ∀ c ∈ natDigits n, isDigitCh c = true := natDigits_digits
  have h1 : (ordinal_frag n g).dropWhile pyIsSpace = ordinal_frag n g := by
    unfold ordinal_frag
    cases hd : natDigits n with
    | nil => exact absurd hd (natDigits_ne_nil n)
    | cons d ds =>
      have : pyIsSpace d = false :=
        isDigitCh_not_space (hdigits d (by rw [hd]; simp))
      rw [List.cons_append, List.dropWhile_cons, this]
      simp
  have h2 : (ordinal_frag n g).takeWhile isDigitCh = natDigits n :=
    takeWhile_append_stop (natDigits n) (' ' :: g) hdigits (by decide)
  have h3 : (ordinal_frag n g).dropWhile isDigitCh = '.' :: ' ' :: g :=
    dropWhile_append_stop (natDigits n) (' ' :: g) hdigits (by decide)
  have h4 : (' ' :: g).dropWhile pyIsSpace = g := by
    rw [List.dropWhile_cons]
    simp only [show pyIsSpace ' ' = true from rfl, if_true]
    cases g with
    | nil => rfl
    | cons a t =>
      rw [List.dropWhile_cons, hhead a rfl]
      simp
  rw [strip_ordinal_chars, h1, h2, h3]
  rw [if_neg (by simpa using natDigits_ne_nil n)]
  exact h4

/-! ## Helper lemmas: the rendered ranking text parses back -/

theorem render_from_chars_ne_nil {n : Nat} {gs : List (List Char)} (h : gs ≠ []) :
    render_from_chars n gs ≠ [] := by
  cases gs with
  | nil => exact absurd rfl h
  | cons g t =>
    cases t with
    | nil =>
      simp only [render_from_chars]
      exact ordinal_frag_ne_nil n g
    | cons h2 t2 =>
      simp only [render_from_chars]
      intro hc
      exact ordinal_frag_ne_nil n g (List.append_eq_nil.mp hc).1

theorem render_head {n : Nat} {gs : List (List Char)} (hgs : gs ≠ []) :
    ∀ c, (render_from_chars n gs).head? = some c → isDigitCh c = true := by
  cases gs with
  | nil => exact absurd rfl hgs
  | cons g t =>
    cases t with
    | nil =>
      simp only [render_from_chars]
      exact ordinal_frag_head
    | cons h2 t2 =>
      simp only [render_from_chars]
      intro c hc
      rw [head?_append_left (ordinal_frag_ne_nil n g)] at hc
      exact ordinal_frag_head c hc

theorem render_last {n : Nat} {gs : List (List Char)} (hne : gs ≠ [])
    (hgood : ∀ g ∈ gs, goodName g = true) :
    ∀ c, (render_from_chars n gs).getLast? = some c → pyIsSpace c = false := by
  induction gs generalizing n with
  | nil => exact absurd rfl hne
  | cons g t ih =>
    cases t with
    | nil =>
      simp only [render_from_chars]
      obtain ⟨hgne, _, _, hglast⟩ := goodName_spec (hgood g (by simp))
      exact ordinal_frag_last hgne hglast
    | cons h2 t2 =>
      simp only [render_from_chars]
      intro c hc
      rw [List.getLast?_append_of_ne_nil _ (by simp)] at hc
      have hr : render_from_chars (n + 1) (h2 :: t2) ≠ [] :=
        render_from_chars_ne_nil (by simp)
      have hview : (',' :: ' ' :: render_from_chars (n + 1) (h2 :: t2)) =
          [',', ' '] ++ render_from_chars (n + 1) (h2 :: t2) := rfl
      rw [hview, List.getLast?_append_of_ne_nil _ hr] at hc
      exact ih (by simp) (fun g' hg' => hgood g' (by simp [hg'])) c hc

theorem split_strip_space (cs : List Char) :
    (splitOnCommaChars (' ' :: cs)).map pyStripChars =
      (splitOnCommaChars cs).map pyStripChars := by
  cases h : splitOnCommaChars cs with
  | nil => exact absurd h (splitOnCommaChars_ne_nil cs)
  | cons p ps =>
    rw [splitOnCommaChars_cons_of_ne (by decide) h]
    simp [pyStripChars_cons_space]

theorem map_strip_split_render :
    ∀ (gs : List (List Char)) (n : Nat), gs ≠ [] → (∀ g ∈ gs, goodName g = true) →
      (splitOnCommaChars (render_from_chars n gs)).map pyStripChars = ordinalFrags n gs := by
  intro gs
  induction gs with
  | nil => intro n h _; exact absurd rfl h
  | cons g t ih =>
    intro n _ hgood
    obtain ⟨hgne, hgcomma, _, hglast⟩ := goodName_spec (hgood g (by simp))
    have hfrag_nocomma : ∀ c ∈ ordinal_frag n g, c ≠ ',' := ordinal_frag_no_comma hgcomma
    have hfrag_strip := ordinal_frag_strip (n := n) hgne hglast
    cases t with
    | nil =>
      simp only [render_from_chars, ordinalFrags]
      rw [splitOnCommaChars_no_comma hfrag_nocomma]
      simp [hfrag_strip]
    | cons h2 t2 =>
      simp only [render_from_chars, ordinalFrags]
      rw [splitOnCommaChars_append _ _ hfrag_nocomma]
      simp only [List.map_cons]
      rw [hfrag_strip, split_strip_space]
      rw [ih (n + 1) (by simp) (fun g' hg' => hgood g' (by simp [hg']))]
      simp [ordinalFrags]

theorem ordinalFrags_mem :
    ∀ {gs : List (List Char)} {n : Nat} {p : List Char},
      p ∈ ordinalFrags n gs → ∃ k g, g ∈ gs ∧ p = ordinal_frag k g := by
  intro gs
  induction gs with
  | nil => intro n p h; simp [ordinalFrags] at h
  | cons g t ih =>
    intro n p h
    simp only [ordinalFrags, List.mem_cons] at h
    rcases h with rfl | h
    · exact ⟨n, g, by simp, rfl⟩
    · obtain ⟨k, g', hg', rfl⟩ := ih h
      exact ⟨k, g', by simp [hg'], rfl⟩

theorem ordinalFrags_filter (gs : List (List Char)) (n : Nat) :
    (ordinalFrags n gs).filter (fun p => !p.isEmpty) = ordinalFrags n gs := by
  rw [List.filter_eq_self]
  intro p hp
  obtain ⟨k, g, _, rfl⟩ := ordinalFrags_mem hp
  simpa using ordinal_frag_ne_nil k g

theorem ordinalFrags_strip {gs : List (List Char)} {n : Nat}
    (hgood : ∀ g ∈ gs, goodName g = true) :
    (ordinalFrags n gs).map strip_ordinal_chars = gs := by
  induction gs generalizing n with
  | nil => rfl
  | cons g t ih =>
    simp only [ordinalFrags, List.map_cons]
    obtain ⟨_, _, hghead, _⟩ := goodName_spec (hgood g (by simp))
    rw [strip_ordinal_ordinal_frag hghead, ih (fun g' h => hgood g' (by simp [h]))]

theorem ordinalFrags_ne_nil {gs : List (List Char)} (h : gs ≠ []) (n : Nat) :
    ordinalFrags n gs ≠ [] := by
  cases gs with
  | nil => exact absurd rfl h
  | cons g t => simp [ordinalFrags]

theorem ranking_parts_render {S : List String} (hne : S ≠ [])
    (hmem : ∀ x ∈ S, x ∈ GAMES) :
    ranking_parts (render_ranking S) =
      (ordinalFrags 1 (S.map String.data)).map (fun p => String.mk p) := by
  have hgood : ∀ g ∈ S.map String.data, goodName g = true := by
    intro g hg
    obtain ⟨x, hx, rfl⟩ := List.mem_map.mp hg
    exact games_goodName x (hmem x hx)
  have hne' : S.map String.data ≠ [] := by simpa using hne
  unfold ranking_parts render_ranking
  rw [show (String.mk (render_from_chars 1 (S.map String.data))).data =
      render_from_chars 1 (S.map String.data) from rfl]
  rw [pyStripChars_eq_self
      (fun c hc => isDigitCh_not_space (render_head hne' c hc))
      (render_last hne' hgood)]
  rw [map_strip_split_render _ 1 hne' hgood, ordinalFrags_filter]

theorem ranking_candidates_render {S : List String} (hne : S ≠ [])
    (hmem : ∀ x ∈ S, x ∈ GAMES) :
    ranking_candidates (render_ranking S) = S := by
  have hgood : ∀ g ∈ S.map String.data, goodName g = true := by
    intro g hg
    obtain ⟨x, hx, rfl⟩ := List.mem_map.mp hg
    exact games_goodName x (hmem x hx)
  unfold ranking_candidates
  rw [ranking_parts_render hne hmem, List.map_map]
  have hcomp : (ordinalFrags 1 (S.map String.data)).map
        (strip_ordinal ∘ fun p => String.mk p) =
      ((ordinalFrags 1 (S.map String.data)).map strip_ordinal_chars).map String.mk := by
    rw [List.map_map]
    rfl
  rw [hcomp, ordinalFrags_strip hgood, List.map_map]
  rw [show (String.mk ∘ String.data) = id from rfl, List.map_id]

/-! ## Helper lemmas: Python set equality and permutations -/

theorem pySetEq_iff {a b : List String} :
    pySetEq a b = true ↔ (∀ x ∈ a, x ∈ b) ∧ ∀ x ∈ b, x ∈ a := by
  simp [pySetEq, List.all_eq_true, List.contains]

theorem pySetEq_refl (a : List String) : pySetEq a a = true :=
  pySetEq_iff.mpr ⟨fun _ hx => hx, fun _ hx => hx⟩

/-- Set equality plus a length check against a duplicate-free list is a
permutation (the property the validation at lines 196-199 relies on). -/
theorem perm_of_pySetEq {a b : List String} (hb : b.Nodup)
    (hset : pySetEq a b = true) (hlen : a.length = b.length) : a.Perm b := by
  obtain ⟨hab, hba⟩ := pySetEq_iff.mp hset
  have htf : a.toFinset = b.toFinset := by
    ext x
    simp only [List.mem_toFinset]
    exact ⟨fun h => hab x h, fun h => hba x h⟩
  have hadl : a.dedup.length = a.length := by
    have h1 : a.toFinset.card = a.dedup.length := List.card_toFinset a
    have h2 : b.toFinset.card = b.dedup.length := List.card_toFinset b
    rw [htf, h2, List.dedup_eq_self.mpr hb] at h1
    rw [← h1, hlen]
  have ha : a.Nodup :=
    List.dedup_eq_self.mp (List.Sublist.eq_of_length (List.dedup_sublist a) hadl)
  exact List.perm_of_nodup_nodup_toFinset_eq ha hb htf

/-! ## Helper lemmas: handler case analysis -/

theorem callback_done_empty {s : Session} (h : s.selected_games = []) :
    handle_selection_callback "__DONE__" s =
      CallbackResult.mk s CallbackOutcome.emptySelectionError
        [done_empty_warning, choose_prompt] := by
  rw [handle_selection_callback, if_pos rfl, if_pos (by simp [h])]

theorem callback_done_nonempty {s : Session} (h : s.selected_games ≠ []) :
    handle_selection_callback "__DONE__" s =
      CallbackResult.mk { s with awaiting_ranking := true }
        CallbackOutcome.rankingPrompt [ranking_prompt_text s.selected_games] := by
  rw [handle_selection_callback, if_pos rfl, if_neg (by simp [h])]

/-- Toggling a catalog item runs the same code in every session state:
lines 138-151 never consult `awaiting_ranking` or `ranking`. -/
theorem callback_toggle {item : String} (hmem : item ∈ GAMES) (s : Session) :
    handle_selection_callback item s =
      CallbackResult.mk
        { s with selected_games :=
            if item ∈ s.selected_games then s.selected_games.erase item
            else s.selected_games ++ [item] }
        CallbackOutcome.toggled [choose_prompt] := by
  have hne : ¬ item = "__DONE__" := by
    rintro rfl
    revert hmem
    decide
  rw [handle_selection_callback, if_neg hne, if_pos hmem]

theorem callback_unknown {data : String} (h1 : data ∉ GAMES)
    (h2 : ¬ data = "__DONE__") (s : Session) :
    handle_selection_callback data s =
      CallbackResult.mk s CallbackOutcome.unknownCallback [something_wrong_text] := by
  rw [handle_selection_callback, if_neg h2, if_neg h1]

theorem ranking_ignored_eq {s : Session} (h : s.awaiting_ranking = false)
    (text : String) :
    handle_ranking_message text s = RankingResult.mk s RankingOutcome.ignored [] := by
  rw [handle_ranking_message, if_pos h]

theorem ranking_noitems_eq {s : Session} (h : s.awaiting_ranking = true)
    {text : String} (hp : (ranking_parts text).isEmpty = true) :
    handle_ranking_message text s =
      RankingResult.mk s RankingOutcome.noItemsDetected [no_items_text] := by
  rw [handle_ranking_message, if_neg (by simp [h]), if_pos hp]

theorem ranking_accepted_eq {s : Session} (h : s.awaiting_ranking = true)
    {text : String} (hp : (ranking_parts text).isEmpty = false)
    (hok : (pySetEq (ranking_candidates text) s.selected_games &&
      (ranking_candidates text).length == s.selected_games.length) = true) :
    handle_ranking_message text s =
      RankingResult.mk
        { s with ranking := ranking_candidates text, awaiting_ranking := false }
        RankingOutcome.accepted [success_text (ranking_candidates text)] := by
  rw [handle_ranking_message, if_neg (by simp [h]), if_neg (by simp [hp]), if_pos hok]

theorem ranking_mismatch_eq {s : Session} (h : s.awaiting_ranking = true)
    {text : String} (hp : (ranking_parts text).isEmpty = false)
    (hok : (pySetEq (ranking_candidates text) s.selected_games &&
      (ranking_candidates text).length == s.selected_games.length) = false) :
    handle_ranking_message text s =
      RankingResult.mk s RankingOutcome.rankingMismatch
        [mismatch_text s.selected_games (ranking_candidates text)] := by
  rw [handle_ranking_message, if_neg (by simp [h]), if_neg (by simp [hp]),
    if_neg (by simp [hok])]

/-- The selection list of every reachable session is duplicate-free:
it only grows by appending an absent game and shrinks by `remove`. -/
theorem reachable_nodup {s : Session} (h : Reachable s) :
    s.selected_games.Nodup := by
  induction h with
  | start => simp [reset_session]
  | callback data hprev ih =>
    rename_i s'
    by_cases hd : data = "__DONE__"
    · subst hd
      by_cases hemp : s'.selected_games = []
      · rw [callback_done_empty hemp]
        exact ih
      · rw [callback_done_nonempty hemp]
        exact ih
    · by_cases hg : data ∈ GAMES
      · rw [callback_toggle hg]
        by_cases hm : data ∈ s'.selected_games
        · simpa [hm] using ih.erase data
        · simp only [hm, if_neg, if_false]
          rw [List.nodup_append]
          refine ⟨ih, by simp, ?_⟩
          intro x hx hx'
          obtain rfl : x = data := by simpa using hx'
          exact hm hx
      · rw [callback_unknown hg hd]
        exact ih
  | message text hprev ih =>
    rename_i s'
    by_cases h1 : s'.awaiting_ranking = false
    · rw [ranking_ignored_eq h1]
      exact ih
    · have h1' : s'.awaiting_ranking = true := by
        revert h1
        cases s'.awaiting_ranking <;> simp
      cases hp : (ranking_parts text).isEmpty with
      | true =>
        rw [ranking_noitems_eq h1' hp]
        exact ih
      | false =>
        cases hok : (pySetEq (ranking_candidates text) s'.selected_games &&
            (ranking_candidates text).length == s'.selected_games.length) with
        | true =>
          rw [ranking_accepted_eq h1' hp hok]
          exact ih
        | false =>
          rw [ranking_mismatch_eq h1' hp hok]
          exact ih

/-- A shared helper: the state after toggling a catalog item, in any
session state. -/
theorem toggle_state {item : String} (hmem : item ∈ GAMES) (s : Session) :
    (handle_selection_callback item s).state =
      { s with selected_games :=
          if item ∈ s.selected_games then s.selected_games.erase item
          else s.selected_games ++ [item] } := by
  rw [callback_toggle hmem]

/-- A shared helper: erasing one occurrence then filtering the rest away
agrees with filtering directly. -/
theorem filter_ne_erase (a : String) :
    ∀ l : List String, (l.erase a).filter (fun x => x ≠ a) = l.filter (fun x => x ≠ a) := by
  intro l
  induction l with
  | nil => rfl
  | cons x t ih =>
    by_cases hx : x = a
    · subst hx
      rw [List.erase_cons_head]
      rw [List.filter_cons, if_neg (by simp)]
    · rw [List.erase_cons_tail (by simpa using hx)]
      rw [List.filter_cons, List.filter_cons, if_pos (by simpa using hx),
        if_pos (by simpa using hx), ih]

/-! ## The claims -/

/-- **C1.** For every non-empty list `S` of distinct catalog items held as
the current selection, submitting the ranking text that renders `S` in its
own order with ordinal markers (`"1. a, 2. b, ..."`) is accepted by the
ranking parser and produces a ranking equal to `S` (round trip of rendering
and parsing). -/
theorem claim_C1_render_parse_round_trip (S r : List String) (hne : S ≠ [])
    (hnd : S.Nodup) (hmem : ∀ x ∈ S, x ∈ GAMES) :
    handle_ranking_message (render_ranking S) (Session.mk S true r) =
      RankingResult.mk (Session.mk S false S) RankingOutcome.accepted
        [success_text S] := by
  have hcand : ranking_candidates (render_ranking S) = S :=
    ranking_candidates_render hne hmem
  have hparts : (ranking_parts (render_ranking S)).isEmpty = false := by
    rw [ranking_parts_render hne hmem]
    cases hl : ordinalFrags 1 (S.map String.data) with
    | nil => exact absurd hl (ordinalFrags_ne_nil (by simpa using hne) 1)
    | cons a t => rfl
  have hok : (pySetEq (ranking_candidates (render_ranking S))
        (Session.mk S true r).selected_games &&
      (ranking_candidates (render_ranking S)).length ==
        (Session.mk S true r).selected_games.length) = true := by
    rw [hcand]
    simp [pySetEq_refl]
  rw [ranking_accepted_eq rfl hparts hok, hcand]

/-- Witness for C1 at the selection `["Chess", "Hangman"]`. -/
theorem claim_C1_witness :
    handle_ranking_message (render_ranking ["Chess", "Hangman"])
        (Session.mk ["Chess", "Hangman"] true []) =
      RankingResult.mk (Session.mk ["Chess", "Hangman"] false ["Chess", "Hangman"])
        RankingOutcome.accepted [success_text ["Chess", "Hangman"]] :=
  claim_C1_render_parse_round_trip ["Chess", "Hangman"] [] (by decide) (by decide)
    (by decide)

/-- **C2 counterexample.** The claim says every operation, including toggle,
preserves the invariant "a non-empty ranking is a permutation of the
selection" on reachable states.  It fails: the state reached by selecting
Chess, pressing Done, and ranking `"1. Chess"` satisfies the invariant, but
a (stale) toggle of Hangman then extends the selection while the stored
ranking stays `["Chess"]`, breaking it. -/
theorem claim_C2_counterexample :
    Reachable (Session.mk ["Chess"] false ["Chess"]) ∧
      session_invariant (Session.mk ["Chess"] false ["Chess"]) ∧
      ¬ session_invariant
          (handle_selection_callback "Hangman"
            (Session.mk ["Chess"] false ["Chess"])).state := by
  refine ⟨?_, ?_, ?_⟩
  · have h1 : (handle_selection_callback "Chess" reset_session).state =
        Session.mk ["Chess"] false [] := by decide
    have h2 : (handle_selection_callback "__DONE__"
        (Session.mk ["Chess"] false [])).state = Session.mk ["Chess"] true [] := by
      decide
    have h3 : (handle_ranking_message "1. Chess"
        (Session.mk ["Chess"] true [])).state =
        Session.mk ["Chess"] false ["Chess"] := by decide
    have r1 : Reachable (Session.mk ["Chess"] false []) :=
      h1 ▸ Reachable.callback "Chess" Reachable.start
    have r2 : Reachable (Session.mk ["Chess"] true []) :=
      h2 ▸ Reachable.callback "__DONE__" r1
    exact h3 ▸ Reachable.message "1. Chess" r2
  · intro _
    exact List.Perm.refl _
  · intro hinv
    have hstate : (handle_selection_callback "Hangman"
        (Session.mk ["Chess"] false ["Chess"])).state =
        Session.mk ["Chess", "Hangman"] false ["Chess"] := by decide
    rw [hstate] at hinv
    exact absurd (hinv (by decide)).length_eq (by decide)

/-- **C2 (amended).** On every reachable session satisfying the invariant
"a non-empty ranking is a permutation of the selection", the reset
operation, the mark-done (Done) operation, and ranking submission all
preserve the invariant.  Toggle is excluded: as the counterexample shows,
a toggle arriving while a ranking is stored can break the invariant, so
the original claim's "every operation" is too strong. -/
theorem claim_C2_amended_preservation (s : Session) (text : String)
    (hr : Reachable s) (hinv : session_invariant s) :
    session_invariant reset_session ∧
      session_invariant (handle_selection_callback "__DONE__" s).state ∧
      session_invariant (handle_ranking_message text s).state := by
  refine ⟨fun h => absurd rfl h, ?_, ?_⟩
  · by_cases hemp : s.selected_games = []
    · rw [callback_done_empty hemp]
      exact hinv
    · rw [callback_done_nonempty hemp]
      exact hinv
  · by_cases h1 : s.awaiting_ranking = false
    · rw [ranking_ignored_eq h1]
      exact hinv
    · have h1' : s.awaiting_ranking = true := by
        revert h1
        cases s.awaiting_ranking <;> simp
      cases hp : (ranking_parts text).isEmpty with
      | true =>
        rw [ranking_noitems_eq h1' hp]
        exact hinv
      | false =>
        cases hok : (pySetEq (ranking_candidates text) s.selected_games &&
            (ranking_candidates text).length == s.selected_games.length) with
        | false =>
          rw [ranking_mismatch_eq h1' hp hok]
          exact hinv
        | true =>
          rw [ranking_accepted_eq h1' hp hok]
          intro _
          rw [Bool.and_eq_true] at hok
          show (ranking_candidates text).Perm s.selected_games
          exact perm_of_pySetEq (reachable_nodup hr) hok.1
            (by simpa using hok.2)

/-- Witness for the amended C2 at the initial session. -/
theorem claim_C2_witness :
    session_invariant reset_session ∧
      session_invariant (handle_selection_callback "__DONE__" reset_session).state ∧
      session_invariant (handle_ranking_message "1. Chess" reset_session).state :=
  claim_C2_amended_preservation reset_session "1. Chess" Reachable.start
    (fun h => absurd rfl h)

/-- **C3 counterexample.** The claim says a toggle received outside the
SELECTING state (here: `awaiting_ranking = true`) leaves the selection
unchanged.  It fails: toggling Chess in such a session changes the
selection from `[]` to `["Chess"]`. -/
theorem claim_C3_counterexample :
    (Session.mk [] true []).awaiting_ranking = true ∧
      (handle_selection_callback "Chess" (Session.mk [] true [])).state.selected_games ≠
        (Session.mk [] true []).selected_games := by
  decide

/-- **C3 (amended).** Toggle events are processed identically in every
session state: a catalog-item tap always toggles the item (removed if
present, else appended at the end), regardless of `awaiting_ranking` or a
stored ranking.  The code has no guard restricting toggles to SELECTING,
so toggles outside SELECTING are not ignored. -/
theorem claim_C3_toggle_in_every_state (s : Session) (item : String)
    (hmem : item ∈ GAMES) :
    (handle_selection_callback item s).state =
      { s with selected_games :=
          if item ∈ s.selected_games then s.selected_games.erase item
          else s.selected_games ++ [item] } ∧
      (handle_selection_callback item s).outcome = CallbackOutcome.toggled := by
  rw [callback_toggle hmem]
  exact ⟨rfl, rfl⟩

/-- Witness for the amended C3: toggling Chess while awaiting a ranking. -/
theorem claim_C3_witness :
    (handle_selection_callback "Chess" (Session.mk [] true [])).state =
      { Session.mk [] true [] with selected_games :=
          if "Chess" ∈ (Session.mk [] true []).selected_games then
            (Session.mk [] true []).selected_games.erase "Chess"
          else (Session.mk [] true []).selected_games ++ ["Chess"] } ∧
      (handle_selection_callback "Chess" (Session.mk [] true [])).outcome =
        CallbackOutcome.toggled :=
  claim_C3_toggle_in_every_state (Session.mk [] true []) "Chess" (by decide)

/-- **C4.** With a ranking awaited and at least one comma fragment, a
submission is accepted if and only if the parsed candidates equal the
selected items under the code's check — set equality plus a length check;
in particular `"1. Chess, 1. Chess"` against the selection
`["Chess", "Hangman"]` is rejected with a ranking mismatch (length differs
even though the sets could agree on fewer elements). -/
theorem claim_C4_accept_iff_set_and_length (s : Session) (text : String)
    (ha : s.awaiting_ranking = true) (hp : (ranking_parts text).isEmpty = false) :
    ((handle_ranking_message text s).outcome = RankingOutcome.accepted ↔
      pySetEq (ranking_candidates text) s.selected_games = true ∧
        (ranking_candidates text).length = s.selected_games.length) ∧
      (handle_ranking_message "1. Chess, 1. Chess"
          (Session.mk ["Chess", "Hangman"] true [])).outcome =
        RankingOutcome.rankingMismatch := by
  refine ⟨?_, by decide⟩
  cases hok : (pySetEq (ranking_candidates text) s.selected_games &&
      (ranking_candidates text).length == s.selected_games.length) with
  | true =>
    rw [ranking_accepted_eq ha hp hok]
    rw [Bool.and_eq_true] at hok
    exact ⟨fun _ => ⟨hok.1, by simpa using hok.2⟩, fun _ => rfl⟩
  | false =>
    rw [ranking_mismatch_eq ha hp hok]
    constructor
    · intro hcontra
      exact absurd hcontra (by simp)
    · rintro ⟨hset, hlen⟩
      have htrue : (pySetEq (ranking_candidates text) s.selected_games &&
          (ranking_candidates text).length == s.selected_games.length) = true := by
        rw [hset]
        simpa using hlen
      rw [htrue] at hok
      exact absurd hok (by simp)

/-- Witness for C4 at the submission `"Chess"` against selection `["Chess"]`. -/
theorem claim_C4_witness :
    ((handle_ranking_message "Chess" (Session.mk ["Chess"] true [])).outcome =
        RankingOutcome.accepted ↔
      pySetEq (ranking_candidates "Chess")
          (Session.mk ["Chess"] true []).selected_games = true ∧
        (ranking_candidates "Chess").length =
          (Session.mk ["Chess"] true []).selected_games.length) ∧
      (handle_ranking_message "1. Chess, 1. Chess"
          (Session.mk ["Chess", "Hangman"] true [])).outcome =
        RankingOutcome.rankingMismatch :=
  claim_C4_accept_iff_set_and_length (Session.mk ["Chess"] true []) "Chess" rfl
    (by decide)

/-- **C5.** Every accepted submission stores, as the ranking, the candidate
list in order of first appearance in the text with ordinal markers
stripped — the typed numbers cause no reordering; in particular
`"2. Hangman, 1. Chess"` against `["Chess", "Hangman"]` yields the ranking
`["Hangman", "Chess"]`. -/
theorem claim_C5_order_of_appearance (s : Session) (text : String)
    (h : (handle_ranking_message text s).outcome = RankingOutcome.accepted) :
    (handle_ranking_message text s).state.ranking = ranking_candidates text ∧
      (handle_ranking_message "2. Hangman, 1. Chess"
          (Session.mk ["Chess", "Hangman"] true [])).state.ranking =
        ["Hangman", "Chess"] := by
  refine ⟨?_, by decide⟩
  by_cases h1 : s.awaiting_ranking = false
  · rw [ranking_ignored_eq h1] at h
    exact absurd h (by simp)
  · have h1' : s.awaiting_ranking = true := by
      revert h1
      cases s.awaiting_ranking <;> simp
    cases hp : (ranking_parts text).isEmpty with
    | true =>
      rw [ranking_noitems_eq h1' hp] at h
      exact absurd h (by simp)
    | false =>
      cases hok : (pySetEq (ranking_candidates text) s.selected_games &&
          (ranking_candidates text).length == s.selected_games.length) with
      | false =>
        rw [ranking_mismatch_eq h1' hp hok] at h
        exact absurd h (by simp)
      | true =>
        rw [ranking_accepted_eq h1' hp hok]

/-- Witness for C5 at the accepted submission `"1. Chess"`. -/
theorem claim_C5_witness :
    (handle_ranking_message "1. Chess" (Session.mk ["Chess"] true [])).state.ranking =
        ranking_candidates "1. Chess" ∧
      (handle_ranking_message "2. Hangman, 1. Chess"
          (Session.mk ["Chess", "Hangman"] true [])).state.ranking =
        ["Hangman", "Chess"] :=
  claim_C5_order_of_appearance (Session.mk ["Chess"] true []) "1. Chess" (by decide)

/-- **C6.** For every duplicate-free selection list (as all reachable
selections are) and catalog item, toggling the item twice restores the
original membership set and keeps the relative order of the other items;
but re-adding appends at the end, so with selection `["Chess", "Hangman"]`
double-toggling Chess yields `["Hangman", "Chess"]`, not the original
order. -/
theorem claim_C6_double_toggle (sel r : List String) (b : Bool) (item : String)
    (hmem : item ∈ GAMES) (hnd : sel.Nodup) :
    ((handle_selection_callback item
        (handle_selection_callback item (Session.mk sel b r)).state).state.selected_games =
      if item ∈ sel then sel.erase item ++ [item] else sel) ∧
      (∀ x, x ∈ (handle_selection_callback item
          (handle_selection_callback item (Session.mk sel b r)).state).state.selected_games ↔
        x ∈ sel) ∧
      ((handle_selection_callback item
          (handle_selection_callback item (Session.mk sel b r)).state).state.selected_games.filter
          (fun x => x ≠ item) = sel.filter (fun x => x ≠ item)) ∧
      ((handle_selection_callback "Chess"
          (handle_selection_callback "Chess"
            (Session.mk ["Chess", "Hangman"] false [])).state).state.selected_games =
        ["Hangman", "Chess"]) := by
  have hdt : (handle_selection_callback item
      (handle_selection_callback item (Session.mk sel b r)).state).state.selected_games =
      if item ∈ sel then sel.erase item ++ [item] else sel := by
    by_cases hm : item ∈ sel
    · have h1 : (handle_selection_callback item (Session.mk sel b r)).state =
          Session.mk (sel.erase item) b r := by
        rw [toggle_state hmem]
        simp [hm]
      have hnotin : item ∉ sel.erase item := by
        intro hx
        exact ((List.Nodup.mem_erase_iff hnd).mp hx).1 rfl
      rw [h1, toggle_state hmem, if_pos hm]
      simp [hnotin]
    · have h1 : (handle_selection_callback item (Session.mk sel b r)).state =
          Session.mk (sel ++ [item]) b r := by
        rw [toggle_state hmem]
        simp [hm]
      rw [h1, toggle_state hmem, if_neg hm]
      have hin : item ∈ sel ++ [item] := by simp
      simp only [hin, if_pos]
      rw [List.erase_append_right _ hm]
      simp
  refine ⟨hdt, ?_, ?_, by decide⟩
  · intro x
    rw [hdt]
    by_cases hm : item ∈ sel
    · rw [if_pos hm]
      simp only [List.mem_append, List.mem_singleton]
      constructor
      · rintro (hx | rfl)
        · exact List.mem_of_mem_erase hx
        · exact hm
      · intro hx
        by_cases hxi : x = item
        · exact Or.inr hxi
        · exact Or.inl ((List.mem_erase_of_ne hxi).mpr hx)
    · rw [if_neg hm]
  · rw [hdt]
    by_cases hm : item ∈ sel
    · rw [if_pos hm, List.filter_append, filter_ne_erase]
      simp
    · rw [if_neg hm]

/-- Witness for C6 at the selection `["Chess", "Hangman"]` and item Chess. -/
theorem claim_C6_witness :
    ((handle_selection_callback "Chess"
        (handle_selection_callback "Chess"
          (Session.mk ["Chess", "Hangman"] false [])).state).state.selected_games =
      if "Chess" ∈ ["Chess", "Hangman"] then
        (["Chess", "Hangman"] : List String).erase "Chess" ++ ["Chess"]
      else ["Chess", "Hangman"]) ∧
      (∀ x, x ∈ (handle_selection_callback "Chess"
          (handle_selection_callback "Chess"
            (Session.mk ["Chess", "Hangman"] false [])).state).state.selected_games ↔
        x ∈ ["Chess", "Hangman"]) ∧
      ((handle_selection_callback "Chess"
          (handle_selection_callback "Chess"
            (Session.mk ["Chess", "Hangman"] false [])).state).state.selected_games.filter
          (fun x => x ≠ "Chess") =
        (["Chess", "Hangman"] : List String).filter (fun x => x ≠ "Chess")) ∧
      ((handle_selection_callback "Chess"
          (handle_selection_callback "Chess"
            (Session.mk ["Chess", "Hangman"] false [])).state).state.selected_games =
        ["Hangman", "Chess"]) :=
  claim_C6_double_toggle ["Chess", "Hangman"] [] false "Chess" (by decide) (by decide)

/-- **C7.** Pressing Done with an empty selection fails with the
empty-selection warning and leaves the session (in particular
`awaiting_ranking`) unchanged; with a non-empty selection it sets
`awaiting_ranking` to true. -/
theorem claim_C7_mark_done (s : Session) :
    (s.selected_games = [] →
      (handle_selection_callback "__DONE__" s).state = s ∧
        (handle_selection_callback "__DONE__" s).outcome =
          CallbackOutcome.emptySelectionError) ∧
      (s.selected_games ≠ [] →
        (handle_selection_callback "__DONE__" s).state =
            { s with awaiting_ranking := true } ∧
          (handle_selection_callback "__DONE__" s).outcome =
            CallbackOutcome.rankingPrompt) := by
  constructor
  · intro h
    rw [callback_done_empty h]
    exact ⟨rfl, rfl⟩
  · intro h
    rw [callback_done_nonempty h]
    exact ⟨rfl, rfl⟩

/-- Witness for C7: Done on an empty and on a non-empty selection. -/
theorem claim_C7_witness :
    ((handle_selection_callback "__DONE__" (Session.mk [] false [])).state =
        Session.mk [] false [] ∧
      (handle_selection_callback "__DONE__" (Session.mk [] false [])).outcome =
        CallbackOutcome.emptySelectionError) ∧
      ((handle_selection_callback "__DONE__" (Session.mk ["Chess"] false [])).state =
          { Session.mk ["Chess"] false [] with awaiting_ranking := true } ∧
        (handle_selection_callback "__DONE__" (Session.mk ["Chess"] false [])).outcome =
          CallbackOutcome.rankingPrompt) :=
  ⟨(claim_C7_mark_done (Session.mk [] false [])).1 rfl,
    (claim_C7_mark_done (Session.mk ["Chess"] false [])).2 (by decide)⟩

/-- **C8.** Every validation error leaves the session exactly unchanged:
no-items-detected and ranking-mismatch outcomes of the message handler,
and the empty-selection outcome of the callback handler, all return the
state they were given. -/
theorem claim_C8_validation_errors_atomic (s : Session) (text data : String) :
    ((handle_ranking_message text s).outcome = RankingOutcome.noItemsDetected →
      (handle_ranking_message text s).state = s) ∧
      ((handle_ranking_message text s).outcome = RankingOutcome.rankingMismatch →
        (handle_ranking_message text s).state = s) ∧
      ((handle_selection_callback data s).outcome = CallbackOutcome.emptySelectionError →
        (handle_selection_callback data s).state = s) := by
  refine ⟨?_, ?_, ?_⟩
  · intro h
    by_cases h1 : s.awaiting_ranking = false
    · rw [ranking_ignored_eq h1]
    · have h1' : s.awaiting_ranking = true := by
        revert h1
        cases s.awaiting_ranking <;> simp
      cases hp : (ranking_parts text).isEmpty with
      | true => rw [ranking_noitems_eq h1' hp]
      | false =>
        cases hok : (pySetEq (ranking_candidates text) s.selected_games &&
            (ranking_candidates text).length == s.selected_games.length) with
        | true =>
          rw [ranking_accepted_eq h1' hp hok] at h
          exact absurd h (by simp)
        | false => rw [ranking_mismatch_eq h1' hp hok]
  · intro h
    by_cases h1 : s.awaiting_ranking = false
    · rw [ranking_ignored_eq h1]
    · have h1' : s.awaiting_ranking = true := by
        revert h1
        cases s.awaiting_ranking <;> simp
      cases hp : (ranking_parts text).isEmpty with
      | true => rw [ranking_noitems_eq h1' hp]
      | false =>
        cases hok : (pySetEq (ranking_candidates text) s.selected_games &&
            (ranking_candidates text).length == s.selected_games.length) with
        | true =>
          rw [ranking_accepted_eq h1' hp hok] at h
          exact absurd h (by simp)
        | false => rw [ranking_mismatch_eq h1' hp hok]
  · intro h
    by_cases hd : data = "__DONE__"
    · subst hd
      by_cases hemp : s.selected_games = []
      · rw [callback_done_empty hemp]
      · rw [callback_done_nonempty hemp] at h
        exact absurd h (by simp)
    · by_cases hg : data ∈ GAMES
      · rw [callback_toggle hg] at h
        exact absurd h (by simp)
      · rw [callback_unknown hg hd]

/-- Witness for C8 at a blank ranking text, an ordinal-only ranking text,
and a Done press on an empty selection. -/
theorem claim_C8_witness :
    (handle_ranking_message " " (Session.mk ["Chess"] true [])).state =
        Session.mk ["Chess"] true [] ∧
      (handle_ranking_message "1. Chess, 1." (Session.mk ["Chess"] true [])).state =
        Session.mk ["Chess"] true [] ∧
      (handle_selection_callback "__DONE__" (Session.mk [] true [])).state =
        Session.mk [] true [] :=
  ⟨(claim_C8_validation_errors_atomic (Session.mk ["Chess"] true []) " " "x").1
      (by decide),
    (claim_C8_validation_errors_atomic (Session.mk ["Chess"] true [])
      "1. Chess, 1." "x").2.1 (by decide),
    (claim_C8_validation_errors_atomic (Session.mk [] true []) "x" "__DONE__").2.2
      (by decide)⟩

/-- **C9 counterexample.** The claim says a toggle with an unknown item
token is *silently* ignored with no error surfaced.  The state is indeed
unchanged, but the handler is not silent: it edits the message to the
"Something went wrong" error text. -/
theorem claim_C9_counterexample :
    (handle_selection_callback "Poker" (Session.mk ["Chess"] false [])).state =
        Session.mk ["Chess"] false [] ∧
      (handle_selection_callback "Poker" (Session.mk ["Chess"] false [])).messages =
        [something_wrong_text] ∧
      ([something_wrong_text] : List String) ≠ [] := by
  refine ⟨by decide, by decide, by simp⟩

/-- **C9 (amended).** A callback whose token is neither a catalog item nor
the Done marker leaves the session state unchanged (a no-op on the state),
but it is not silent: the handler replies with the generic
"Something went wrong" error message. -/
theorem claim_C9_unknown_toggle_not_silent (s : Session) (data : String)
    (h1 : data ∉ GAMES) (h2 : data ≠ "__DONE__") :
    (handle_selection_callback data s).state = s ∧
      (handle_selection_callback data s).outcome = CallbackOutcome.unknownCallback ∧
      (handle_selection_callback data s).messages = [something_wrong_text] := by
  rw [callback_unknown h1 h2]
  exact ⟨rfl, rfl, rfl⟩

/-- Witness for the amended C9 at the unknown token `"Skat"`. -/
theorem claim_C9_witness :
    (handle_selection_callback "Skat" (Session.mk [] true [])).state =
        Session.mk [] true [] ∧
      (handle_selection_callback "Skat" (Session.mk [] true [])).outcome =
        CallbackOutcome.unknownCallback ∧
      (handle_selection_callback "Skat" (Session.mk [] true [])).messages =
        [something_wrong_text] :=
  claim_C9_unknown_toggle_not_silent (Session.mk [] true []) "Skat" (by decide)
    (by decide)

/-- **C10.** With a ranking awaited, a non-empty selection of non-empty
names, any input one of whose surviving comma fragments is an ordinal
marker only (normalizing to the empty string, e.g. `"1."`) is rejected
with a ranking mismatch — the empty candidate is kept, so the input is
never accepted and never reported as no-items-detected. -/
theorem claim_C10_ordinal_only_fragment_rejected (s : Session) (text p : String)
    (ha : s.awaiting_ranking = true) (hne : s.selected_games ≠ [])
    (hnames : ∀ g ∈ s.selected_games, g ≠ "")
    (hp : p ∈ ranking_parts text) (hord : strip_ordinal p = "") :
    (handle_ranking_message text s).outcome = RankingOutcome.rankingMismatch ∧
      (handle_ranking_message text s).outcome ≠ RankingOutcome.noItemsDetected ∧
      (handle_ranking_message "1. Chess, 1."
          (Session.mk ["Chess"] true [])).outcome = RankingOutcome.rankingMismatch := by
  have hmem : "" ∈ ranking_candidates text := List.mem_map.mpr ⟨p, hp, hord⟩
  have hparts : (ranking_parts text).isEmpty = false := by
    cases hl : ranking_parts text with
    | nil =>
      rw [hl] at hp
      simp at hp
    | cons a t => rfl
  have hset : pySetEq (ranking_candidates text) s.selected_games = false := by
    cases hval : pySetEq (ranking_candidates text) s.selected_games with
    | false => rfl
    | true =>
      obtain ⟨hab, _⟩ := pySetEq_iff.mp hval
      exact absurd rfl (hnames "" (hab "" hmem))
  have hok : (pySetEq (ranking_candidates text) s.selected_games &&
      (ranking_candidates text).length == s.selected_games.length) = false := by
    rw [hset]
    rfl
  rw [ranking_mismatch_eq ha hparts hok]
  exact ⟨rfl, by simp, by decide⟩

/-- Witness for C10 at the input `"1. Chess, 1."` with its fragment `"1."`. -/
theorem claim_C10_witness :
    (handle_ranking_message "1. Chess, 1." (Session.mk ["Chess"] true [])).outcome =
        RankingOutcome.rankingMismatch ∧
      (handle_ranking_message "1. Chess, 1." (Session.mk ["Chess"] true [])).outcome ≠
        RankingOutcome.noItemsDetected ∧
      (handle_ranking_message "1. Chess, 1."
          (Session.mk ["Chess"] true [])).outcome = RankingOutcome.rankingMismatch :=
  claim_C10_ordinal_only_fragment_rejected (Session.mk ["Chess"] true [])
    "1. Chess, 1." "1." rfl (by decide) (by decide) (by decide) (by decide)

end SpieleklubBot
